import Mathlib

/-!
Verification of the `ask` chat CLI (src/main.rs): the history-window
selection loop, log persistence, response handling, and configuration
precedence, embedded shallowly in Lean.
-/

namespace Ask

/-- `MAX_TOKENS` constant from main.rs line 18. -/
def MAX_TOKENS : Int := 2000

/-- `DEFAULT_TIMEOUT_SECS` constant from main.rs line 19. -/
def DEFAULT_TIMEOUT_SECS : Nat := 120

/-- The `Log` struct: one persisted conversation turn. `tokens` is an
`i64` in Rust, embedded as `Int`. -/
structure Log where
  timestamp : String
  role : String
  content : String
  tokens : Int
  deriving Repr, DecidableEq

/-- The `Message` struct: the wire-level role and content pair. -/
structure Message where
  role : String
  content : String
  deriving Repr, DecidableEq

/-- The `create_message` constructor function. -/
def create_message (role : String) (content : String) : Message :=
  ⟨role, content⟩

/-- `create_message` applied to the fields of a log entry, as done in the
selection loop at main.rs line 123. -/
def logMessage (l : Log) : Message :=
  create_message l.role l.content

/-- The `OpenAIRequest` struct: the request body sent to the endpoint. -/
structure OpenAIRequest where
  model : String
  messages : List Message
  deriving Repr, DecidableEq

/-- The selection loop of main.rs lines 117-125: the input list is the
chatlog reversed (newest first, as produced by `.iter().rev()`), `total`
is `total_tokens` and `ms` is the `messages` vector accumulated so far.
An entry is skipped when adding its tokens would exceed `MAX_TOKENS`,
otherwise it is pushed and its tokens added to the running total. -/
def selGo : List Log → Int → List Message → Int × List Message
  | [], total, ms => (total, ms)
  | l :: rest, total, ms =>
    if total + l.tokens > MAX_TOKENS then
      selGo rest total ms
    else
      selGo rest (total + l.tokens) (ms ++ [logMessage l])

/-- The historical window transmitted with a request: the selection loop
run over the reversed chatlog starting from zero, with the result
reversed back to chronological order (main.rs line 128). -/
def windowMessages (chatlog : List Log) : List Message :=
  (selGo chatlog.reverse 0 []).2.reverse

/-- The full transmitted message list: the window followed by the new
user prompt, pushed unconditionally (main.rs line 130). -/
def buildMessages (chatlog : List Log) (prompt : String) : List Message :=
  windowMessages chatlog ++ [create_message "user" prompt]

/-- The request body built in main.rs lines 135-138. -/
def buildRequest (model : String) (chatlog : List Log) (prompt : String) :
    OpenAIRequest :=
  ⟨model, buildMessages chatlog prompt⟩

/-- Model selection of main.rs lines 86-89: the `--model` argument,
else the `CHATGPT_CLI_MODEL` environment variable, else the default. -/
def modelChoice (argModel : Option String) (envModel : Option String) : String :=
  ((argModel).orElse (fun _ => envModel)).getD "gpt-3.5-turbo"

/-- Rust `str::parse::<u64>`: an optional leading plus sign followed by
at least one decimal digit, rejecting anything else and values that do
not fit in 64 bits. -/
def parseU64 (s : String) : Option Nat :=
  let t := match s.toList with
    | '+' :: rest => rest
    | cs => cs
  if t.isEmpty then none
  else if t.all Char.isDigit then
    let n := t.foldl (fun acc c => acc * 10 + (c.toNat - 48)) 0
    if n < 2 ^ 64 then some n else none
  else none

/-- Timeout selection of main.rs lines 147-150: parse the environment
variable when present, falling back to the default on absence or on any
parse failure. -/
def timeoutSecs (envVal : Option String) : Nat :=
  (envVal.bind parseU64).getD DEFAULT_TIMEOUT_SECS

/-- A `serde_json::Value`, at the structural level (the textual encoding
and decoding mechanics are out of scope per the specification). -/
inductive Json where
  | null : Json
  | str : String → Json
  | num : Int → Json
  | obj : List (String × Json) → Json
  | arr : List Json → Json

/-- Field lookup inside a JSON object's field list. -/
def jsonLookup (fields : List (String × Json)) (k : String) : Option Json :=
  (fields.find? (fun p => p.1 == k)).map Prod.snd

/-- `Value` indexing by field name, as in `response["error"]`: yields
`Null` for a missing field or a non-object value. -/
def Json.get : Json → String → Json
  | Json.obj fields, k => (jsonLookup fields k).getD Json.null
  | _, _ => Json.null

/-- `Value` indexing by position, as in `response["choices"][0]`: yields
`Null` out of bounds or on a non-array value. -/
def Json.idx : Json → Nat → Json
  | Json.arr elems, i => (elems.get? i).getD Json.null
  | _, _ => Json.null

/-- `Value::as_object`. -/
def Json.as_object : Json → Option (List (String × Json))
  | Json.obj fields => some fields
  | _ => none

/-- `Value::as_str`. -/
def Json.as_str : Json → Option String
  | Json.str s => some s
  | _ => none

/-- `Value::as_i64`: the number when it fits a signed 64-bit integer. -/
def Json.as_i64 : Json → Option Int
  | Json.num n => if -(2 ^ 63) ≤ n ∧ n < 2 ^ 63 then some n else none
  | _ => none

/-- Serde serialization of one `Log` entry: a JSON object with the four
fields in declaration order. -/
def logToJson (l : Log) : Json :=
  Json.obj [("timestamp", Json.str l.timestamp), ("role", Json.str l.role),
            ("content", Json.str l.content), ("tokens", Json.num l.tokens)]

/-- Serde deserialization of one `Log` entry: all four fields must be
present with the right types, `tokens` fitting an `i64`. -/
def logFromJson (j : Json) : Option Log :=
  match j with
  | Json.obj fields =>
    match jsonLookup fields "timestamp", jsonLookup fields "role",
          jsonLookup fields "content", jsonLookup fields "tokens" with
    | some (Json.str ts), some (Json.str r), some (Json.str c),
      some (Json.num n) =>
        if -(2 ^ 63) ≤ n ∧ n < 2 ^ 63 then some ⟨ts, r, c, n⟩ else none
    | _, _, _, _ => none
  | _ => none

/-- Serde serialization of `Vec<Log>`: a JSON array, in order. -/
def logsToJson (logs : List Log) : Json :=
  Json.arr (logs.map logToJson)

/-- Deserialize a list of JSON values into log entries, failing if any
element fails. -/
def logsFromJsonList : List Json → Option (List Log)
  | [] => some []
  | j :: rest =>
    match logFromJson j, logsFromJsonList rest with
    | some l, some ls => some (l :: ls)
    | _, _ => none

/-- Serde deserialization of `Vec<Log>` from a JSON value. -/
def logsFromJson : Json → Option (List Log)
  | Json.arr elems => logsFromJsonList elems
  | _ => none

/-- Contents of the log file: empty (as created fresh), or a serialized
JSON value (non-empty text). -/
inductive FileText where
  | empty : FileText
  | json : Json → FileText

/-- The observable file-system state at the fixed per-user log path:
whether the parent directory exists and the log file's contents
(`none` when the file is absent). -/
structure FsState where
  dirExists : Bool
  logFile : Option FileText

/-- Log loading of main.rs lines 98-108: `create_dir_all` on the parent,
then `OpenOptions::new().create(true).append(true).read(true).open`,
which creates an empty file when absent and leaves existing contents
untouched, then `read_to_string`. Returns the state after the open
together with the text read. -/
def loadLog (fs : FsState) : FsState × FileText :=
  let text := fs.logFile.getD FileText.empty
  (⟨true, some text⟩, text)

/-- Parsing of the loaded text, main.rs lines 115-116: empty text leaves
the chatlog empty; non-empty text must deserialize (`?` aborts the
process otherwise). -/
def parseChatlog : FileText → Option (List Log)
  | FileText.empty => some []
  | FileText.json j => logsFromJson j

/-- Serialization and persistence of the chatlog, main.rs lines 198-199:
the whole sequence is serialized and the file overwritten. -/
def persistText (logs : List Log) : FileText :=
  FileText.json (logsToJson logs)

/-- Outcome of a session that terminated normally: the file-system state
left behind, the line printed to stdout, and the process exit code. -/
structure RunResult where
  fs : FsState
  stdout : String
  exitCode : Nat

/-- Response handling and persistence of main.rs lines 115-201 after the
network call: `none` models an abnormal termination (a deserialization
error propagated by `?`, or an `unwrap` panic on a malformed response).
If `response["error"]` is an object the provider's message is printed
with the `"Received an error from OpenAI: "` prefix and the function
returns `Ok(())` without touching the log; otherwise the usage counts
and answer are extracted, the answer printed, the two new entries
appended, and the file overwritten. `ts1` and `ts2` are the timestamps
taken at the two `create_log` calls. -/
def runSession (fs0 : FsState) (prompt ts1 ts2 : String) (response : Json) :
    Option RunResult :=
  let fs1 := (loadLog fs0).1
  let text := (loadLog fs0).2
  match parseChatlog text with
  | none => none
  | some chatlog =>
    match (response.get "error").as_object with
    | some _ =>
      match ((response.get "error").get "message").as_str with
      | some m =>
          some ⟨fs1, "Received an error from OpenAI: " ++ m, 0⟩
      | none => none
    | none =>
      match ((response.get "usage").get "prompt_tokens").as_i64,
            ((response.get "usage").get "completion_tokens").as_i64,
            ((((response.get "choices").idx 0).get "message").get
              "content").as_str with
      | some pt, some ct, some ans =>
          let newlog := chatlog ++
            [⟨ts1, "user", prompt, pt⟩, ⟨ts2, "assistant", ans, ct⟩]
          some ⟨⟨fs1.dirExists, some (persistText newlog)⟩, ans, 0⟩
      | _, _, _ => none

/-- Total of the `tokens` fields of a list of log entries. -/
def tokensSum (logs : List Log) : Int :=
  (logs.map Log.tokens).sum

/-- Modelled from the spec: "selects the maximal suffix of entries (by
recency) whose cumulative token count fits the budget" — the longest
suffix of the chatlog whose token total is at most `MAX_TOKENS`. Used to
compare the spec's wording with the selection loop actually in the code. -/
def maxFittingSuffix : List Log → List Log
  | [] => []
  | l :: rest =>
    if tokensSum (l :: rest) ≤ MAX_TOKENS then l :: rest
    else maxFittingSuffix rest

/-- A concrete three-entry chatlog whose middle entry is oversized. -/
def exLog : List Log :=
  [⟨"t1", "user", "alpha", 100⟩, ⟨"t2", "assistant", "beta", 3000⟩,
   ⟨"t3", "user", "gamma", 100⟩]

/-- A provider response carrying a structured error object. -/
def rateLimitedResponse : Json :=
  Json.obj [("error", Json.obj [("message", Json.str "rate limited")])]

theorem tokensSum_nil : tokensSum [] = 0 := rfl

theorem tokensSum_cons (l : Log) (ls : List Log) :
    tokensSum (l :: ls) = l.tokens + tokensSum ls := by
  simp [tokensSum]

theorem tokensSum_reverse (ls : List Log) :
    tokensSum ls.reverse = tokensSum ls := by
  simp [tokensSum, List.sum_reverse]

theorem tokensSum_nonneg (p : List Log) (h : ∀ l ∈ p, 0 ≤ l.tokens) :
    0 ≤ tokensSum p := by
  refine List.sum_nonneg ?_
  intro x hx
  obtain ⟨l, hl, rfl⟩ := List.mem_map.mp hx
  exact h l hl

/-- Master description of the selection loop: the accumulated messages
are extended by the images of some sublist of the scanned entries, the
running total grows by exactly that sublist's token total, and a total
within budget stays within budget. -/
theorem selGo_spec (rs : List Log) :
    ∀ (t : Int) (ms : List Message), ∃ sel : List Log,
      sel.Sublist rs ∧
      (selGo rs t ms).2 = ms ++ sel.map logMessage ∧
      (selGo rs t ms).1 = t + tokensSum sel ∧
      (t ≤ MAX_TOKENS → (selGo rs t ms).1 ≤ MAX_TOKENS) := by
  induction rs with
  | nil =>
    intro t ms
    exact ⟨[], List.Sublist.refl _, by simp [selGo],
           by simp [selGo, tokensSum], fun h => by simpa [selGo] using h⟩
  | cons l rest ih =>
    intro t ms
    by_cases hc : t + l.tokens > MAX_TOKENS
    · obtain ⟨sel, hsub, h2, h1, hb⟩ := ih t ms
      refine ⟨sel, hsub.cons l, ?_, ?_, ?_⟩
      · simpa [selGo, hc] using h2
      · simpa [selGo, hc] using h1
      · simpa [selGo, hc] using hb
    · obtain ⟨sel, hsub, h2, h1, hb⟩ := ih (t + l.tokens) (ms ++ [logMessage l])
      refine ⟨l :: sel, hsub.cons₂ l, ?_, ?_, ?_⟩
      · simp only [selGo, if_neg hc]
        rw [h2]
        simp
      · simp only [selGo, if_neg hc]
        rw [h1, tokensSum_cons]
        ring
      · intro ht
        simp only [selGo, if_neg hc]
        exact hb (not_lt.mp hc)

/-- A block of entries that all fit within the remaining budget is
consumed by the loop without any skip: each entry is pushed in order and
its tokens added to the running total. -/
theorem selGo_append_fits (p : List Log) :
    ∀ (rs : List Log) (t : Int) (ms : List Message),
      (∀ l ∈ p, 0 ≤ l.tokens) → t + tokensSum p ≤ MAX_TOKENS →
      selGo (p ++ rs) t ms = selGo rs (t + tokensSum p) (ms ++ p.map logMessage) := by
  induction p with
  | nil =>
    intro rs t ms _ _
    simp [tokensSum]
  | cons l p2 ih =>
    intro rs t ms hnn hfit
    have hp2 : 0 ≤ tokensSum p2 :=
      tokensSum_nonneg p2 (fun x hx => hnn x (List.mem_cons_of_mem l hx))
    have hsum : t + tokensSum (l :: p2) = t + l.tokens + tokensSum p2 := by
      rw [tokensSum_cons]; ring
    have hl : ¬ (t + l.tokens > MAX_TOKENS) := by
      rw [tokensSum_cons] at hfit
      push_neg
      nlinarith [hp2, hfit]
    have step : selGo ((l :: p2) ++ rs) t ms =
        selGo (p2 ++ rs) (t + l.tokens) (ms ++ [logMessage l]) := by
      simp only [List.cons_append, selGo, if_neg hl, List.append_eq]
    rw [step, ih rs (t + l.tokens) (ms ++ [logMessage l])
          (fun x hx => hnn x (List.mem_cons_of_mem l hx))
          (by rw [tokensSum_cons] at hfit; linarith)]
    rw [hsum]
    simp

/-- `maxFittingSuffix` is a suffix of its input. -/
theorem maxFittingSuffix_isSuffixOf (logs : List Log) :
    ∃ pre, logs = pre ++ maxFittingSuffix logs := by
  induction logs with
  | nil => exact ⟨[], rfl⟩
  | cons l rest ih =>
    by_cases hc : tokensSum (l :: rest) ≤ MAX_TOKENS
    · exact ⟨[], by simp [maxFittingSuffix, hc]⟩
    · obtain ⟨pre, hp⟩ := ih
      refine ⟨l :: pre, ?_⟩
      simp only [maxFittingSuffix, if_neg hc, List.cons_append]
      exact congrArg (l :: ·) hp

/-- `maxFittingSuffix` fits the budget. -/
theorem maxFittingSuffix_fits (logs : List Log) :
    tokensSum (maxFittingSuffix logs) ≤ MAX_TOKENS := by
  induction logs with
  | nil => simp [maxFittingSuffix, tokensSum, MAX_TOKENS]
  | cons l rest ih =>
    by_cases hc : tokensSum (l :: rest) ≤ MAX_TOKENS
    · rw [maxFittingSuffix, if_pos hc]
      exact hc
    · simpa [maxFittingSuffix, hc] using ih

/-- Provider-error handling in general: when the loaded text parses and
the response carries an error object with a string message, the session
ends normally with the prefixed message printed and the file-system
state exactly as the load left it (no write). -/
theorem runSession_provider_error (fs : FsState) (t : FileText)
    (cl : List Log) (prompt ts1 ts2 m : String)
    (fields : List (String × Json)) (resp : Json)
    (hload : (loadLog fs).2 = t) (hparse : parseChatlog t = some cl)
    (hobj : (resp.get "error").as_object = some fields)
    (hmsg : ((resp.get "error").get "message").as_str = some m) :
    runSession fs prompt ts1 ts2 resp =
      some ⟨(loadLog fs).1, "Received an error from OpenAI: " ++ m, 0⟩ := by
  simp [runSession, hload, hparse, hobj, hmsg]

/-- Deserialization undoes serialization on a single entry whose token
count fits an `i64`. -/
theorem logToJson_roundtrip (l : Log)
    (h : -(2 ^ 63) ≤ l.tokens ∧ l.tokens < 2 ^ 63) :
    logFromJson (logToJson l) = some l := by
  simp [logFromJson, logToJson, jsonLookup, List.find?]
  norm_num at h
  exact h

/-- Deserialization undoes serialization elementwise on a list. -/
theorem logsFromJsonList_roundtrip (logs : List Log)
    (h : ∀ l ∈ logs, -(2 ^ 63) ≤ l.tokens ∧ l.tokens < 2 ^ 63) :
    logsFromJsonList (logs.map logToJson) = some logs := by
  induction logs with
  | nil => rfl
  | cons l ls ih =>
    have h1 := logToJson_roundtrip l (h l (List.mem_cons_self l ls))
    have h2 := ih (fun x hx => h x (List.mem_cons_of_mem l hx))
    simp [logsFromJsonList, h1, h2]

/-- Claim C1: every transmitted window consists of a sublist of the
stored chatlog whose token total is at most the budget
`MAX_TOKENS = 2000`, and the new user prompt is appended after the
window without being counted against that budget. -/
theorem window_total_tokens_le_budget (chatlog : List Log) (prompt : String) :
    ∃ sel : List Log, sel.Sublist chatlog ∧
      windowMessages chatlog = sel.map logMessage ∧
      tokensSum sel ≤ MAX_TOKENS ∧ MAX_TOKENS = 2000 ∧
      buildMessages chatlog prompt =
        windowMessages chatlog ++ [create_message "user" prompt] := by
  obtain ⟨sel, hsub, h2, h1, hb⟩ := selGo_spec chatlog.reverse 0 []
  refine ⟨sel.reverse, ?_, ?_, ?_, rfl, rfl⟩
  · simpa using hsub.reverse
  · unfold windowMessages
    rw [h2]
    simp [List.map_reverse]
  · have hle : (selGo chatlog.reverse 0 []).1 ≤ MAX_TOKENS :=
      hb (by norm_num [MAX_TOKENS])
    rw [h1] at hle
    rw [tokensSum_reverse]
    linarith

/-- Claim C2, counterexample: with an oversized middle entry the window
is not the maximal fitting suffix — the loop skips the middle entry and
keeps the older one, so the window has a gap and is not a suffix. -/
theorem window_not_max_suffix_counterexample :
    windowMessages exLog ≠ (maxFittingSuffix exLog).map logMessage := by
  decide

/-- Claim C2 as amended: for a chatlog with nonnegative token counts
(the documented invariant), the transmitted window always contains the
maximal fitting suffix as its most recent segment, though it may also
contain older entries reached after a skip. -/
theorem window_contains_max_fitting_suffix (chatlog : List Log)
    (h : ∀ l ∈ chatlog, 0 ≤ l.tokens) :
    ∃ pre, windowMessages chatlog =
      pre ++ (maxFittingSuffix chatlog).map logMessage := by
  obtain ⟨pre0, hpre⟩ := maxFittingSuffix_isSuffixOf chatlog
  have hmemS : ∀ l ∈ maxFittingSuffix chatlog, 0 ≤ l.tokens := by
    intro l hl
    exact h l (by rw [hpre]; exact List.mem_append_right pre0 hl)
  have hrev : chatlog.reverse =
      (maxFittingSuffix chatlog).reverse ++ pre0.reverse := by
    conv_lhs => rw [hpre]
    exact List.reverse_append pre0 (maxFittingSuffix chatlog)
  have hfit : (0 : Int) +
      tokensSum (maxFittingSuffix chatlog).reverse ≤ MAX_TOKENS := by
    rw [tokensSum_reverse]
    have := maxFittingSuffix_fits chatlog
    linarith
  have hstep := selGo_append_fits (maxFittingSuffix chatlog).reverse
    pre0.reverse 0 [] (fun l hl => hmemS l (List.mem_reverse.mp hl)) hfit
  obtain ⟨sel, hsub, h2, h1, hb⟩ := selGo_spec pre0.reverse
    (0 + tokensSum (maxFittingSuffix chatlog).reverse)
    ([] ++ (maxFittingSuffix chatlog).reverse.map logMessage)
  refine ⟨(sel.map logMessage).reverse, ?_⟩
  unfold windowMessages
  rw [hrev, hstep, h2]
  simp [List.reverse_append, List.map_reverse]

/-- Witness for the amended claim C2 on the concrete three-entry log. -/
theorem window_contains_max_fitting_suffix_witness :
    (∀ l ∈ exLog, 0 ≤ l.tokens) ∧
    ∃ pre, windowMessages exLog =
      pre ++ (maxFittingSuffix exLog).map logMessage :=
  ⟨by decide, window_contains_max_fitting_suffix exLog (by decide)⟩

/-- Claim C3: an entry whose tokens would push the running total over
the budget is skipped and the scan continues: the loop state is
unchanged by the oversized entry, and a following older entry that fits
is included with its tokens added to the total. -/
theorem oversized_entry_skipped_scan_continues (older : List Log)
    (e e2 : Log) (t : Int) (ms : List Message)
    (hskip : t + e.tokens > MAX_TOKENS)
    (hfit : t + e2.tokens ≤ MAX_TOKENS) :
    selGo (e :: older) t ms = selGo older t ms ∧
    selGo (e :: e2 :: older) t ms =
      selGo older (t + e2.tokens) (ms ++ [logMessage e2]) := by
  constructor
  · simp only [selGo, if_pos hskip]
  · simp only [selGo, if_pos hskip, if_neg (not_lt.mpr hfit)]

/-- Witness for claim C3: a 2200-token entry is skipped against the
2000 budget while a later 600-token entry is still included. -/
theorem oversized_entry_skipped_scan_continues_witness :
    ((0 : Int) + (Log.mk "t4" "user" "big" 2200).tokens > MAX_TOKENS) ∧
    ((0 : Int) + (Log.mk "t3" "assistant" "small" 600).tokens ≤ MAX_TOKENS) ∧
    (selGo [Log.mk "t4" "user" "big" 2200] 0 [] = selGo [] 0 [] ∧
     selGo [Log.mk "t4" "user" "big" 2200,
            Log.mk "t3" "assistant" "small" 600] 0 [] =
       selGo [] ((0 : Int) + (Log.mk "t3" "assistant" "small" 600).tokens)
         ([] ++ [logMessage (Log.mk "t3" "assistant" "small" 600)])) :=
  ⟨by decide, by decide,
   oversized_entry_skipped_scan_continues []
     (Log.mk "t4" "user" "big" 2200) (Log.mk "t3" "assistant" "small" 600)
     0 [] (by decide) (by decide)⟩

/-- Claim C4: the transmitted window lists the included entries in the
same relative order as the stored chatlog (it is a sublist of the
chatlog's message projection). -/
theorem window_preserves_chronological_order (chatlog : List Log) :
    (windowMessages chatlog).Sublist (chatlog.map logMessage) := by
  obtain ⟨sel, hsub, h2, _, _⟩ := selGo_spec chatlog.reverse 0 []
  unfold windowMessages
  rw [h2]
  have h3 := (hsub.map logMessage).reverse
  simpa [List.map_reverse] using h3

/-- Claim C5, counterexample: on a provider error with message
"rate limited" the program prints the message with the prefix
"Received an error from OpenAI: ", not exactly the message. -/
theorem provider_error_message_counterexample :
    (runSession ⟨true, some (persistText [])⟩ "hi" "t1" "t2"
        rateLimitedResponse).map RunResult.stdout ≠ some "rate limited" := by
  have hval : (runSession ⟨true, some (persistText [])⟩ "hi" "t1" "t2"
      rateLimitedResponse).map RunResult.stdout =
      some "Received an error from OpenAI: rate limited" := rfl
  rw [hval]
  simp

/-- Claim C5 as amended: on a structured provider error the program
prints the provider's message prefixed with
"Received an error from OpenAI: ", leaves the log file's contents
unchanged (no entries appended, no persist), and exits with code 0. -/
theorem provider_error_prints_prefixed_message (fs : FsState) (t : FileText)
    (cl : List Log) (prompt ts1 ts2 m : String)
    (fields : List (String × Json)) (resp : Json)
    (hfile : fs.logFile = some t) (hparse : parseChatlog t = some cl)
    (hobj : (resp.get "error").as_object = some fields)
    (hmsg : ((resp.get "error").get "message").as_str = some m) :
    runSession fs prompt ts1 ts2 resp =
      some ⟨⟨true, some t⟩, "Received an error from OpenAI: " ++ m, 0⟩ := by
  have hload : (loadLog fs).2 = t := by simp [loadLog, hfile]
  have h1 : (loadLog fs).1 = ⟨true, some t⟩ := by simp [loadLog, hfile]
  rw [runSession_provider_error fs t cl prompt ts1 ts2 m fields resp
        hload hparse hobj hmsg, h1]

/-- Witness for the amended claim C5 on the "rate limited" response and
a well-formed existing log file. -/
theorem provider_error_prints_prefixed_message_witness :
    ((FsState.mk true (some (persistText []))).logFile =
      some (persistText [])) ∧
    (parseChatlog (persistText []) = some []) ∧
    ((rateLimitedResponse.get "error").as_object =
      some [("message", Json.str "rate limited")]) ∧
    (((rateLimitedResponse.get "error").get "message").as_str =
      some "rate limited") ∧
    runSession ⟨true, some (persistText [])⟩ "hi" "t1" "t2"
        rateLimitedResponse =
      some ⟨⟨true, some (persistText [])⟩,
            "Received an error from OpenAI: " ++ "rate limited", 0⟩ :=
  ⟨rfl, rfl, rfl, rfl,
   provider_error_prints_prefixed_message ⟨true, some (persistText [])⟩
     (persistText []) [] "hi" "t1" "t2" "rate limited"
     [("message", Json.str "rate limited")] rateLimitedResponse
     rfl rfl rfl rfl⟩

/-- Claim C6: serializing a chatlog, persisting it, loading and
deserializing it returns the same sequence of entries, field for field
and in order, for every chatlog whose token counts fit an `i64` (as all
Rust `i64` values do). -/
theorem persist_load_roundtrip (logs : List Log)
    (h : ∀ l ∈ logs, -(2 ^ 63) ≤ l.tokens ∧ l.tokens < 2 ^ 63) :
    parseChatlog (persistText logs) = some logs := by
  show logsFromJson (logsToJson logs) = some logs
  simp only [logsToJson, logsFromJson]
  exact logsFromJsonList_roundtrip logs h

/-- Witness for claim C6 on the concrete three-entry log. -/
theorem persist_load_roundtrip_witness :
    (∀ l ∈ exLog, -(2 ^ 63) ≤ l.tokens ∧ l.tokens < 2 ^ 63) ∧
    parseChatlog (persistText exLog) = some exLog :=
  ⟨by decide, persist_load_roundtrip exLog (by decide)⟩

/-- Claim C7: with an empty stored log (absent or empty file) and the
prompt "hello", the transmitted message list is exactly one user message
with content "hello". -/
theorem empty_log_sends_only_prompt :
    parseChatlog FileText.empty = some [] ∧
    buildMessages [] "hello" = [create_message "user" "hello"] ∧
    create_message "user" "hello" = ⟨"user", "hello"⟩ :=
  ⟨rfl, rfl, rfl⟩

/-- Claim C8: the model is the `--model` argument when present, else the
`CHATGPT_CLI_MODEL` environment variable when set, else the hardcoded
default "gpt-3.5-turbo". -/
theorem model_argument_precedence :
    (∀ (m : String) (env : Option String), modelChoice (some m) env = m) ∧
    (∀ e : String, modelChoice none (some e) = e) ∧
    modelChoice none none = "gpt-3.5-turbo" :=
  ⟨fun _ _ => rfl, fun _ => rfl, rfl⟩

/-- Claim C9: a timeout environment value that does not parse as an
unsigned 64-bit integer is ignored and the default of 120 seconds is
used; the program does not fail. -/
theorem invalid_timeout_uses_default (s : String)
    (h : parseU64 s = none) :
    timeoutSecs (some s) = DEFAULT_TIMEOUT_SECS ∧
    DEFAULT_TIMEOUT_SECS = 120 := by
  constructor
  · simp [timeoutSecs, h]
  · rfl

/-- Witness for claim C9 on the non-parsing value "-5". -/
theorem invalid_timeout_uses_default_witness :
    (parseU64 "-5" = none) ∧
    (timeoutSecs (some "-5") = DEFAULT_TIMEOUT_SECS ∧
     DEFAULT_TIMEOUT_SECS = 120) :=
  ⟨by decide, invalid_timeout_uses_default "-5" (by decide)⟩

/-- Claim C10: when the log file is absent, loading creates the parent
directory and an empty file while the loaded sequence is empty, and a
run that ends in a provider error still leaves that empty file behind. -/
theorem absent_log_file_created_empty (fs : FsState)
    (prompt ts1 ts2 : String) (habs : fs.logFile = none) :
    loadLog fs = (⟨true, some FileText.empty⟩, FileText.empty) ∧
    parseChatlog FileText.empty = some [] ∧
    (∀ (m : String) (fields : List (String × Json)) (resp : Json),
      (resp.get "error").as_object = some fields →
      ((resp.get "error").get "message").as_str = some m →
      runSession fs prompt ts1 ts2 resp =
        some ⟨⟨true, some FileText.empty⟩,
              "Received an error from OpenAI: " ++ m, 0⟩) := by
  have hload : loadLog fs = (⟨true, some FileText.empty⟩, FileText.empty) := by
    simp [loadLog, habs]
  refine ⟨hload, rfl, ?_⟩
  intro m fields resp hobj hmsg
  have h2 : (loadLog fs).2 = FileText.empty := by rw [hload]
  have hrun := runSession_provider_error fs FileText.empty [] prompt ts1 ts2
    m fields resp h2 rfl hobj hmsg
  rw [hrun, hload]

/-- Witness for claim C10: an absent file plus the "rate limited"
provider error leaves an empty log file behind. -/
theorem absent_log_file_created_empty_witness :
    ((FsState.mk false none).logFile = none) ∧
    runSession ⟨false, none⟩ "hi" "t1" "t2" rateLimitedResponse =
      some ⟨⟨true, some FileText.empty⟩,
            "Received an error from OpenAI: " ++ "rate limited", 0⟩ :=
  ⟨rfl,
   (absent_log_file_created_empty ⟨false, none⟩ "hi" "t1" "t2" rfl).2.2
     "rate limited" [("message", Json.str "rate limited")]
     rateLimitedResponse rfl rfl⟩

end Ask
